import Mathlib

/-!
Verification of the incremental-merge/dedup engine and session layer of the
`real_world` streaming-extraction repository.

The Python source under `real_world/` is shallowly embedded below:

* `CharInterval`, `Extraction`, `Document` mirror the `langextract` data
  objects as the repository uses them (`char_interval` may be absent, and a
  present interval may still have absent positions, exactly as in Python).
* `merge` mirrors `StreamExtractor._merge` in `lib_stream/processor.py`.
* `push` / `flush` mirror `StreamExtractor.push` / `StreamExtractor.flush`;
  the external extraction call `lx.extract` is an explicit function argument
  of type `ExtractFn`, whose failure (a raised exception) is an
  `Except.error`.  Each operation also reports the list of texts it submitted
  to the extraction function, so that "performs no extraction call" and
  "runs over the entire transcript" are directly observable.
* `flatten_chat_messages` mirrors `common/extraction_config.py`.
* `ws_endpoint_step` mirrors the per-frame body of the websocket loop in
  `websocket_server/app.py`.
* `extract_endpoint` mirrors the REST handler in `rest_api/app.py`.
-/

/-- Character interval of a span; both positions are optional, as in the
Python `CharInterval` dataclass. -/
structure CharInterval where
  start_pos : Option Int
  end_pos : Option Int
  deriving DecidableEq, Repr

/-- A labeled span produced by an extraction call, mirroring
`langextract.core.data.Extraction` as used by the repository.  Attributes are
opaque metadata, modelled as an association list. -/
structure Extraction where
  extraction_class : String
  extraction_text : String
  char_interval : Option CharInterval
  attributes : List (String × String) := []
  deriving DecidableEq, Repr

/-- The document returned by an extraction call
(`langextract.core.data.AnnotatedDocument`): a text and an optional list of
extractions (`doc.extractions or []` in Python treats `None` as empty). -/
structure Document where
  text : String
  extractions : Option (List Extraction)
  deriving DecidableEq, Repr

/-- The external extraction function: either returns a document or raises
(modelled as `Except.error` carrying the cause). -/
def ExtractFn : Type := String → Except String Document

/-- Identity key of a span, mirroring the local `key` / `k` helpers in
`processor.py`: `(extraction_class, extraction_text, start, end)` with the
positions read through the optional interval. -/
def keyOf (e : Extraction) : String × String × Option Int × Option Int :=
  match e.char_interval with
  | none => (e.extraction_class, e.extraction_text, none, none)
  | some ci => (e.extraction_class, e.extraction_text, ci.start_pos, ci.end_pos)

/-- Key type of `keyOf`. -/
abbrev SpanKey := String × String × Option Int × Option Int

/-- Half-open interval overlap, mirroring the local `overlaps` helper in
`StreamExtractor._merge`: spans overlap iff both have fully-defined
intervals and `s1 < e2 AND s2 < e1`. -/
def overlapsB (a b : Extraction) : Bool :=
  match a.char_interval, b.char_interval with
  | some ca, some cb =>
    match ca.start_pos, ca.end_pos, cb.start_pos, cb.end_pos with
    | some s1, some e1, some s2, some e2 => decide (s1 < e2) && decide (s2 < e1)
    | _, _, _, _ => false
  | _, _ => false

/-- Loop of `StreamExtractor._merge`: walk the candidates, skipping any whose
key is in `existing` or which overlaps a span already in `merged`; accepted
candidates are appended to `merged` and their key added to `existing`. -/
def mergeGo : List Extraction → List SpanKey → List Extraction → List Extraction
  | merged, _, [] => merged
  | merged, existing, ex :: rest =>
    if keyOf ex ∈ existing then mergeGo merged existing rest
    else if merged.any fun m => overlapsB ex m then mergeGo merged existing rest
    else mergeGo (merged ++ [ex]) (keyOf ex :: existing) rest

/-- `StreamExtractor._merge`: first-come-wins merge of `new` into `first`,
starting from the keys of `first`. -/
def merge (first new : List Extraction) : List Extraction :=
  mergeGo first (first.map keyOf) new

/-- Modelled from the spec wording of §4.1: a candidate is kept iff its
identity key is not already present in the result built so far and it does
not overlap any span already present in the result built so far. -/
def mergeSpecGo : List Extraction → List Extraction → List Extraction
  | _, [] => []
  | acc, c :: cs =>
    if keyOf c ∈ acc.map keyOf ∨ (acc.any fun m => overlapsB c m) = true then
      mergeSpecGo acc cs
    else c :: mergeSpecGo (acc ++ [c]) cs

/-- Modelled from the spec wording of §4.1: every span of `accepted` in
order, followed by the candidates kept by the first-occurrence-wins,
no-overlap rule applied against the result built so far. -/
def mergeSpec (accepted candidates : List Extraction) : List Extraction :=
  accepted ++ mergeSpecGo accepted candidates

deriving instance DecidableEq for Except

/-- State of a `StreamExtractor`: pending buffer, transcript, merged set and
the configured `max_char_buffer` threshold. -/
structure SE where
  buffer : List String
  transcript : List String
  merged : List Extraction
  maxCharBuffer : Nat
  deriving DecidableEq, Repr

/-- Result of one `push` call: the value returned (or the raised cause), the
extractor state afterwards, and the texts submitted to the extraction
function during the call. -/
structure PushOut where
  result : Except String (List (List Extraction))
  state : SE
  calls : List String
  deriving DecidableEq, Repr

/-- Result of one `flush` call, instrumented like `PushOut`. -/
structure FlushOut where
  result : Except String (List Extraction)
  state : SE
  calls : List String
  deriving DecidableEq, Repr

/-- Total character count of the pending buffer, mirroring
`sum(len(c) for c in self._buffer)`. -/
def bufLen (buffer : List String) : Nat :=
  (buffer.map String.length).sum

/-- `StreamExtractor.push`: appends the chunk to buffer and transcript; below
half the threshold returns nothing, otherwise extracts over the whole
transcript, returns the key-delta against the prior merged set, merges the
new list into the merged set and clears the buffer.  A raise of the
extraction function leaves buffer, transcript and merged set as they were at
the call site (chunk already appended, buffer not cleared). -/
def push (f : ExtractFn) (st : SE) (chunk : String) : PushOut :=
  if chunk = "" then ⟨.ok [], st, []⟩
  else
    let buffer2 := st.buffer ++ [chunk]
    let transcript2 := st.transcript ++ [chunk]
    if bufLen buffer2 < st.maxCharBuffer / 2 then
      ⟨.ok [], { st with buffer := buffer2, transcript := transcript2 }, []⟩
    else
      let fullText := String.intercalate "\n" transcript2
      match f fullText with
      | .error e =>
        ⟨.error e, { st with buffer := buffer2, transcript := transcript2 }, [fullText]⟩
      | .ok doc =>
        let newList := doc.extractions.getD []
        let prevKeys := st.merged.map keyOf
        let delta := newList.filter fun e => decide (keyOf e ∉ prevKeys)
        ⟨.ok (if delta.isEmpty then [] else [delta]),
         { st with buffer := [], transcript := transcript2,
                   merged := merge st.merged newList },
         [fullText]⟩

/-- `StreamExtractor.flush`: empty buffer returns `[]` immediately with no
extraction call; otherwise performs the same extract-delta-merge sequence as
a triggered `push` and clears the buffer. -/
def flush (f : ExtractFn) (st : SE) : FlushOut :=
  if st.buffer.isEmpty then ⟨.ok [], st, []⟩
  else
    let fullText := String.intercalate "\n" st.transcript
    match f fullText with
    | .error e => ⟨.error e, st, [fullText]⟩
    | .ok doc =>
      let newList := doc.extractions.getD []
      let prevKeys := st.merged.map keyOf
      let delta := newList.filter fun e => decide (keyOf e ∉ prevKeys)
      ⟨.ok delta,
       { st with buffer := [], merged := merge st.merged newList },
       [fullText]⟩

/-- One operation of a session against a `StreamExtractor`. -/
inductive SEOp
  | push (chunk : String)
  | flush
  deriving DecidableEq, Repr

/-- Spans observed by the caller from one `push` result: the concatenation
of the yielded delta lists (nothing on a raise). -/
def pushEmitted (o : PushOut) : List Extraction :=
  match o.result with
  | .ok ds => ds.flatten
  | .error _ => []

/-- Spans observed by the caller from one `flush` result. -/
def flushEmitted (o : FlushOut) : List Extraction :=
  match o.result with
  | .ok d => d
  | .error _ => []

/-- Run a sequence of pushes and flushes against one extractor, collecting
every span emitted to the caller, in order. -/
def runSE (f : ExtractFn) : SE → List SEOp → List Extraction × SE
  | st, [] => ([], st)
  | st, SEOp.push c :: rest =>
    let o := push f st c
    let r := runSE f o.state rest
    (pushEmitted o ++ r.1, r.2)
  | st, SEOp.flush :: rest =>
    let o := flush f st
    let r := runSE f o.state rest
    (flushEmitted o ++ r.1, r.2)

/-- Span `A` over `[0,5)`, used in the concrete sessions below. -/
def spanA : Extraction :=
  ⟨"letter", "A", some ⟨some 0, some 5⟩, []⟩

/-- Span `B` over `[2,7)`: a different identity key whose interval overlaps
`spanA`. -/
def spanB : Extraction :=
  ⟨"letter", "B", some ⟨some 2, some 7⟩, []⟩

/-- Extraction function that always reports both `spanA` and `spanB`. -/
def extractAB : ExtractFn :=
  fun t => .ok ⟨t, some [spanA, spanB]⟩

/-- A fresh extractor with `max_char_buffer = 10`, so a push triggers once
the pending buffer holds at least 5 characters. -/
def se0 : SE := ⟨[], [], [], 10⟩

/-- Extraction function that always raises. -/
def extractFail : ExtractFn := fun _ => .error "boom"

/-- Python `str.strip()`: drop leading and trailing whitespace.  Defined
structurally over the character list so that concrete sessions evaluate
inside the kernel. -/
def pyStrip (s : String) : String :=
  String.mk
    (((s.data.dropWhile Char.isWhitespace).reverse.dropWhile
        Char.isWhitespace).reverse)

/-- A chat message as stored by the session layer and consumed by
`flatten_chat_messages`: a dict whose `role` and `content` keys may be
absent (`m.get(...)` in Python). -/
structure Msg where
  role : Option String
  content : Option String
  deriving DecidableEq, Repr

/-- The line contributed by one message in `flatten_chat_messages`: role
defaults to `user` when absent or empty, content is trimmed, and a message
whose trimmed content is empty contributes nothing. -/
def messageLine (m : Msg) : Option String :=
  let role := match m.role with
    | none => "user"
    | some s => if s = "" then "user" else s
  let content := pyStrip (m.content.getD "")
  if content = "" then none else some (role ++ ": " ++ content)

/-- `flatten_chat_messages` from `common/extraction_config.py`: the
newline-joined `role: content` lines of the non-blank messages. -/
def flatten_chat_messages (messages : List Msg) : String :=
  String.intercalate "\n" (messages.filterMap messageLine)

/-- Role resolution of the websocket handler:
`(data.get("role") or "user").strip() or "user"`. -/
def roleOf (r : Option String) : String :=
  let r0 := match r with
    | none => "user"
    | some s => if s = "" then "user" else s
  let r1 := pyStrip r0
  if r1 = "" then "user" else r1

/-- Content resolution of the websocket handler:
`(data.get("content") or "").strip()`. -/
def contentOf (c : Option String) : String :=
  pyStrip (c.getD "")

/-- Parsed body of one websocket frame: the truthiness of the `eot` field,
whether `type == "eot"`, and the optional `role` / `content` fields. -/
structure FrameData where
  eot : Bool
  typeIsEot : Bool
  role : Option String
  content : Option String
  deriving DecidableEq, Repr

/-- One inbound websocket frame: either unparsable JSON or a parsed body. -/
inductive InFrame
  | malformed
  | frame (d : FrameData)
  deriving DecidableEq, Repr

/-- Outcome frames sent back by the websocket handler for one inbound
frame.  `result true _ _` is the `aggregate_result` frame, `result false _ _`
the single-shot `result` frame. -/
inductive Outcome
  | errorMsg (msg : String)
  | eotAck
  | warn (msg : String)
  | status (msg : String)
  | result (isAggregate : Bool) (text : String) (extractions : List Extraction)
  deriving DecidableEq, Repr

/-- Observable effect of one loop iteration of the websocket handler: the
outcome frames sent, the conversation history afterwards, and the texts
submitted to the extraction function. -/
structure WsOut where
  outcomes : List Outcome
  messages : List Msg
  calls : List String
  deriving DecidableEq, Repr

/-- Per-frame body of `ws_endpoint` in `websocket_server/app.py`: malformed
JSON answers an error frame; an `eot` marker clears the history (aggregate
mode only) and acks; blank content warns; otherwise the handler emits
`status`, extracts over the flattened history (aggregate) or the single
content (single-shot), and emits the document's text with its full span
list, or an error frame if the extraction call raises. -/
def ws_endpoint_step (aggregate : Bool) (f : ExtractFn) (messages : List Msg)
    (fr : InFrame) : WsOut :=
  match fr with
  | .malformed => ⟨[.errorMsg "invalid json"], messages, []⟩
  | .frame d =>
    if d.eot || d.typeIsEot then
      ⟨[.eotAck], if aggregate then [] else messages, []⟩
    else
      if contentOf d.content = "" then ⟨[.warn "empty content"], messages, []⟩
      else
        let messages2 := if aggregate then
            messages ++ [⟨some (roleOf d.role), some (contentOf d.content)⟩]
          else messages
        let text := if aggregate then flatten_chat_messages messages2
          else contentOf d.content
        match f text with
        | .error e => ⟨[.status "processing", .errorMsg e], messages2, [text]⟩
        | .ok doc =>
          ⟨[.status "processing",
            .result aggregate doc.text (doc.extractions.getD [])],
           messages2, [text]⟩

/-- A REST request message (`Message` pydantic model): role and content are
both required strings. -/
structure Message where
  role : String
  content : String
  deriving DecidableEq, Repr

/-- The dict produced by `m.model_dump()`: both keys present. -/
def toMsg (m : Message) : Msg :=
  ⟨some m.role, some m.content⟩

/-- A span of the REST response (`ExtractionSpan` pydantic model). -/
structure RestSpan where
  extraction_class : String
  extraction_text : String
  char_start : Option Int
  char_end : Option Int
  attributes : List (String × String)
  deriving DecidableEq, Repr

/-- Mapping of an extraction to a response span:
`ext.char_interval.start_pos if ext.char_interval else None`. -/
def toRestSpan (ext : Extraction) : RestSpan :=
  ⟨ext.extraction_class, ext.extraction_text,
   ext.char_interval.bind CharInterval.start_pos,
   ext.char_interval.bind CharInterval.end_pos,
   ext.attributes⟩

/-- Body of a successful REST response (`ExtractResponse` without the echoed
configuration fields). -/
structure RestResponse where
  text : String
  extractions : List RestSpan
  deriving DecidableEq, Repr

/-- Observable effect of one REST call: the HTTP result (an error status
with detail, or the response body) and the texts submitted to the
extraction function. -/
structure RestOut where
  result : Except (Nat × String) RestResponse
  calls : List String
  deriving DecidableEq, Repr

/-- `extract_endpoint` from `rest_api/app.py`: an empty message list fails
with HTTP 400 before any extraction call; otherwise the messages are
flattened, extraction runs once, a raise maps to HTTP 500, and the
response carries `result.text or text` with the mapped span list. -/
def extract_endpoint (f : ExtractFn) (messages : List Message) : RestOut :=
  if messages = [] then ⟨.error (400, "messages must be provided"), []⟩
  else
    let text := flatten_chat_messages (messages.map toMsg)
    match f text with
    | .error e => ⟨.error (500, e), [text]⟩
    | .ok doc =>
      ⟨.ok ⟨if doc.text = "" then text else doc.text,
            (doc.extractions.getD []).map toRestSpan⟩,
       [text]⟩

/-- Constant-result span used in the websocket sessions below. -/
def spanX : Extraction :=
  ⟨"token", "u", some ⟨some 0, some 1⟩, []⟩

/-- Extraction function that reports `spanX` over any text. -/
def extractConst : ExtractFn :=
  fun t => .ok ⟨t, some [spanX]⟩

/-- First websocket turn of the concrete sessions. -/
def frame1 : FrameData := ⟨false, false, some "user", some "first"⟩

/-- Second websocket turn of the concrete sessions. -/
def frame2 : FrameData := ⟨false, false, some "user", some "second"⟩

/-- Reset frame (`eot` flag set). -/
def frameEot : FrameData := ⟨true, false, none, none⟩

/-- History entry created by `frame1`. -/
def msg1 : Msg := ⟨some "user", some "first"⟩

/-- History entry created by `frame2`. -/
def msg2 : Msg := ⟨some "user", some "second"⟩

/-- Document returned by `extractConst` on the first turn. -/
def docFirst : Document := ⟨"user: first", some [spanX]⟩

/-- Invariant of the merge loop: when `existing` holds exactly the keys of
`merged`, the source loop agrees with the spec-worded loop. -/
lemma mergeGo_eq_spec (cands : List Extraction) :
    ∀ (merged : List Extraction) (existing : List SpanKey),
      (∀ kk : SpanKey, kk ∈ existing ↔ kk ∈ merged.map keyOf) →
      mergeGo merged existing cands = merged ++ mergeSpecGo merged cands := by
  induction cands with
  | nil => intro merged existing _; simp [mergeGo, mergeSpecGo]
  | cons ex rest ih =>
    intro merged existing h
    by_cases hk : keyOf ex ∈ existing
    · have hk2 : keyOf ex ∈ merged.map keyOf := (h _).mp hk
      rw [mergeGo, if_pos hk, mergeSpecGo, if_pos (Or.inl hk2)]
      exact ih merged existing h
    · have hk2 : keyOf ex ∉ merged.map keyOf := fun hmem => hk ((h _).mpr hmem)
      by_cases hov : (merged.any fun m => overlapsB ex m) = true
      · rw [mergeGo, if_neg hk, if_pos hov, mergeSpecGo, if_pos (Or.inr hov)]
        exact ih merged existing h
      · rw [mergeGo, if_neg hk, if_neg hov, mergeSpecGo,
          if_neg (by push_neg; exact ⟨hk2, hov⟩)]
        have h2 : ∀ kk : SpanKey,
            kk ∈ keyOf ex :: existing ↔ kk ∈ (merged ++ [ex]).map keyOf := by
          intro kk
          simp only [List.mem_cons, List.map_append, List.mem_append,
            List.map_cons, List.map_nil, h kk]
          tauto
        rw [ih (merged ++ [ex]) (keyOf ex :: existing) h2]
        simp

/-- C2: `merge(accepted, candidates)` returns every span of `accepted` in
order followed by exactly the candidates, in input order, whose identity key
is not already present and which do not overlap any span already in the
result built so far — i.e. the source `_merge` coincides with the spec's
description of the merge contract. -/
theorem merge_eq_mergeSpec (accepted candidates : List Extraction) :
    merge accepted candidates = mergeSpec accepted candidates :=
  mergeGo_eq_spec candidates accepted (accepted.map keyOf) (fun _ => Iff.rfl)

/-- C1: the value returned by a triggered push is the raw pre-filter key
delta `[spanA, spanB]`, yet the merge step accepts only `spanA` (it rejects
`spanB` by the overlap rule) — so the caller receives a span the merge step
did not accept, contradicting the claim that the returned list is the
merge-accepted delta. -/
theorem push_returns_prefilter_delta :
    (push extractAB se0 "xxxxx").result = .ok [[spanA, spanB]] ∧
      merge [] [spanA, spanB] = [spanA] := by
  decide

/-- C3: pushing two triggering chunks against `extractAB` emits
`[spanA, spanB, spanB]` in total: `spanB` is rejected by the merge (its key
never enters the merged set) and is therefore re-emitted with the same
identity key on the second call, so the cumulative emissions contain a
duplicate identity key. -/
theorem emitted_duplicate_key :
    (runSE extractAB se0 [SEOp.push "xxxxx", SEOp.push "yyyyy"]).1 =
      [spanA, spanB, spanB] ∧
      ¬ List.Pairwise (fun a b => keyOf a ≠ keyOf b)
        (runSE extractAB se0 [SEOp.push "xxxxx", SEOp.push "yyyyy"]).1 := by
  decide

/-- C4: a single triggered push against `extractAB` emits both `spanA` and
`spanB` even though their intervals overlap under the half-open rule, so the
cumulative emissions of a session contain an overlapping pair. -/
theorem emitted_overlapping_pair :
    (runSE extractAB se0 [SEOp.push "xxxxx"]).1 = [spanA, spanB] ∧
      overlapsB spanA spanB = true := by
  decide

/-- C6: a flush on an empty pending buffer returns an empty result, submits
no text to the extraction function, and leaves the state unchanged; and
after any flush that returns successfully, a second flush is exactly such a
no-op (buffer, transcript and merged set unchanged, no extraction call). -/
theorem flush_empty_noop (f g : ExtractFn) (st : SE) :
    (st.buffer = [] → flush f st = ⟨.ok [], st, []⟩) ∧
    (∀ d, (flush f st).result = Except.ok d →
      flush g (flush f st).state = ⟨.ok [], (flush f st).state, []⟩) := by
  constructor
  · intro h
    simp [flush, h]
  · intro d hd
    by_cases hb : st.buffer.isEmpty
    · have h0 : flush f st = ⟨.ok [], st, []⟩ := by
        simp [flush, hb]
      rw [h0]
      simp [flush, hb]
    · cases hf : f (String.intercalate "\n" st.transcript) with
      | error e =>
        have h0 : flush f st = ⟨.error e, st,
            [String.intercalate "\n" st.transcript]⟩ := by
          simp [flush, hb, hf]
        rw [h0] at hd
        simp at hd
      | ok doc =>
        have h0 : (flush f st).state.buffer = [] := by
          simp [flush, hb, hf]
        generalize (flush f st).state = X at h0 ⊢
        simp [flush, h0]

/-- C6 witness: the two no-op flushes at a concrete empty extractor. -/
theorem flush_empty_noop_witness :
    flush extractFail se0 = ⟨.ok [], se0, []⟩ ∧
    flush extractAB (flush extractFail se0).state =
      ⟨.ok [], (flush extractFail se0).state, []⟩ :=
  ⟨(flush_empty_noop extractFail extractAB se0).1 rfl,
   (flush_empty_noop extractFail extractAB se0).2 [] (by decide)⟩

/-- C7: a push of a non-empty chunk submits no text to the extraction
function exactly when the appended pending buffer is still below half the
threshold; below that bound it returns no result and just appends the chunk
to buffer and transcript; at or above it, it submits exactly the full
transcript (all fragments joined by a newline) and, whenever the call
returns successfully, the pending buffer is cleared. -/
theorem push_threshold (f : ExtractFn) (st : SE) (chunk : String)
    (hc : chunk ≠ "") :
    ((push f st chunk).calls = [] ↔
      bufLen (st.buffer ++ [chunk]) < st.maxCharBuffer / 2) ∧
    (bufLen (st.buffer ++ [chunk]) < st.maxCharBuffer / 2 →
      push f st chunk =
        ⟨.ok [], { st with buffer := st.buffer ++ [chunk],
                           transcript := st.transcript ++ [chunk] }, []⟩) ∧
    (¬ bufLen (st.buffer ++ [chunk]) < st.maxCharBuffer / 2 →
      (push f st chunk).calls =
        [String.intercalate "\n" (st.transcript ++ [chunk])] ∧
      (push f st chunk).state.transcript = st.transcript ++ [chunk] ∧
      ∀ ds, (push f st chunk).result = Except.ok ds →
        (push f st chunk).state.buffer = []) := by
  by_cases hth : bufLen (st.buffer ++ [chunk]) < st.maxCharBuffer / 2
  · refine ⟨?_, fun _ => ?_, fun h => absurd hth h⟩
    · simp [push, hc, hth]
    · simp [push, hc, hth]
  · refine ⟨?_, fun h => absurd h hth, fun _ => ?_⟩
    · cases hf : f (String.intercalate "\n" (st.transcript ++ [chunk])) with
      | error e => simp [push, hc, hth, hf]
      | ok doc => simp [push, hc, hth, hf]
    · cases hf : f (String.intercalate "\n" (st.transcript ++ [chunk])) with
      | error e => simp [push, hc, hth, hf]
      | ok doc => simp [push, hc, hth, hf]

/-- C7 witness: the threshold dichotomy at a concrete below-threshold push. -/
theorem push_threshold_witness :
    (((push extractAB se0 "ab").calls = [] ↔
      bufLen (se0.buffer ++ ["ab"]) < se0.maxCharBuffer / 2) ∧
    (bufLen (se0.buffer ++ ["ab"]) < se0.maxCharBuffer / 2 →
      push extractAB se0 "ab" =
        ⟨.ok [], { se0 with buffer := se0.buffer ++ ["ab"],
                            transcript := se0.transcript ++ ["ab"] }, []⟩) ∧
    (¬ bufLen (se0.buffer ++ ["ab"]) < se0.maxCharBuffer / 2 →
      (push extractAB se0 "ab").calls =
        [String.intercalate "\n" (se0.transcript ++ ["ab"])] ∧
      (push extractAB se0 "ab").state.transcript = se0.transcript ++ ["ab"] ∧
      ∀ ds, (push extractAB se0 "ab").result = Except.ok ds →
        (push extractAB se0 "ab").state.buffer = [])) :=
  push_threshold extractAB se0 "ab" (by decide)

/-- C8: when the extraction function raises during a triggered push, the
push fails with that cause, the chunk stays in the pending buffer and the
transcript (nothing is cleared), and the next flush submits exactly the same
accumulated text again; a flush whose extraction call raises likewise fails
with the cause and leaves the whole state untouched. -/
theorem extraction_failure_preserves_state (f : ExtractFn) (st : SE)
    (chunk cause : String) (hc : chunk ≠ "")
    (hth : ¬ bufLen (st.buffer ++ [chunk]) < st.maxCharBuffer / 2)
    (hf : f (String.intercalate "\n" (st.transcript ++ [chunk])) =
      Except.error cause) :
    push f st chunk =
      ⟨.error cause,
       { st with buffer := st.buffer ++ [chunk],
                 transcript := st.transcript ++ [chunk] },
       [String.intercalate "\n" (st.transcript ++ [chunk])]⟩ ∧
    (flush f (push f st chunk).state).calls =
      [String.intercalate "\n" (st.transcript ++ [chunk])] ∧
    (∀ st2 c2, st2.buffer ≠ [] →
      f (String.intercalate "\n" st2.transcript) = Except.error c2 →
      flush f st2 =
        ⟨.error c2, st2, [String.intercalate "\n" st2.transcript]⟩) := by
  have hpush : push f st chunk =
      ⟨.error cause,
       { st with buffer := st.buffer ++ [chunk],
                 transcript := st.transcript ++ [chunk] },
       [String.intercalate "\n" (st.transcript ++ [chunk])]⟩ := by
    simp [push, hc, hth, hf]
  have hflush : ∀ st2 c2, st2.buffer ≠ [] →
      f (String.intercalate "\n" st2.transcript) = Except.error c2 →
      flush f st2 =
        ⟨.error c2, st2, [String.intercalate "\n" st2.transcript]⟩ := by
    intro st2 c2 hb2 hf2
    have hb2b : st2.buffer.isEmpty = false := by
      cases h2 : st2.buffer with
      | nil => exact absurd h2 hb2
      | cons a l => rfl
    simp [flush, hb2b, hf2]
  refine ⟨hpush, ?_, hflush⟩
  rw [hpush]
  exact congrArg FlushOut.calls
    (hflush { st with buffer := st.buffer ++ [chunk],
                      transcript := st.transcript ++ [chunk] } cause
      (by simp) hf)

/-- C8 witness: a concrete failing push followed by a retrying flush. -/
theorem extraction_failure_preserves_state_witness :
    push extractFail se0 "xxxxx" =
      ⟨.error "boom",
       { se0 with buffer := se0.buffer ++ ["xxxxx"],
                  transcript := se0.transcript ++ ["xxxxx"] },
       [String.intercalate "\n" (se0.transcript ++ ["xxxxx"])]⟩ ∧
    (flush extractFail (push extractFail se0 "xxxxx").state).calls =
      [String.intercalate "\n" (se0.transcript ++ ["xxxxx"])] ∧
    (∀ st2 c2, st2.buffer ≠ [] →
      extractFail (String.intercalate "\n" st2.transcript) = Except.error c2 →
      flush extractFail st2 =
        ⟨.error c2, st2, [String.intercalate "\n" st2.transcript]⟩) :=
  extraction_failure_preserves_state extractFail se0 "xxxxx" "boom"
    (by decide) (by decide) rfl

/-- C5: in a concrete two-turn aggregate session the second
aggregate-result outcome again carries `spanX`, whose identity key was
already emitted by the first turn — the payload is the full extraction
result for the whole conversation, not a delta against the session's prior
accepted spans. -/
theorem aggregate_result_not_delta :
    ws_endpoint_step true extractConst [] (.frame frame1) =
      ⟨[.status "processing", .result true "user: first" [spanX]],
       [msg1], ["user: first"]⟩ ∧
    ws_endpoint_step true extractConst [msg1] (.frame frame2) =
      ⟨[.status "processing",
        .result true "user: first\nuser: second" [spanX]],
       [msg1, msg2], ["user: first\nuser: second"]⟩ := by
  decide

/-- Shape of a successful aggregate-mode turn, shared by the theorems
below. -/
lemma ws_step_aggregate_ok (f : ExtractFn) (msgs : List Msg)
    (d : FrameData) (doc : Document)
    (he : d.eot = false) (ht : d.typeIsEot = false)
    (hc : contentOf d.content ≠ "")
    (hf : f (flatten_chat_messages
        (msgs ++ [⟨some (roleOf d.role), some (contentOf d.content)⟩])) =
      Except.ok doc) :
    ws_endpoint_step true f msgs (.frame d) =
      ⟨[.status "processing",
        .result true doc.text (doc.extractions.getD [])],
       msgs ++ [⟨some (roleOf d.role), some (contentOf d.content)⟩],
       [flatten_chat_messages
         (msgs ++ [⟨some (roleOf d.role), some (contentOf d.content)⟩])]⟩ := by
  simp [ws_endpoint_step, he, ht, hc, hf]

/-- C5 amended: in aggregate mode, on extraction success the session emits
an aggregate result outcome carrying the text returned by extraction over
the flattened conversation and the full span list of that extraction —
no delta-merging against previously emitted spans is performed. -/
theorem ws_aggregate_emits_full_result (f : ExtractFn) (msgs : List Msg)
    (d : FrameData) (doc : Document)
    (he : d.eot = false) (ht : d.typeIsEot = false)
    (hc : contentOf d.content ≠ "")
    (hf : f (flatten_chat_messages
        (msgs ++ [⟨some (roleOf d.role), some (contentOf d.content)⟩])) =
      Except.ok doc) :
    ws_endpoint_step true f msgs (.frame d) =
      ⟨[.status "processing",
        .result true doc.text (doc.extractions.getD [])],
       msgs ++ [⟨some (roleOf d.role), some (contentOf d.content)⟩],
       [flatten_chat_messages
         (msgs ++ [⟨some (roleOf d.role), some (contentOf d.content)⟩])]⟩ :=
  ws_step_aggregate_ok f msgs d doc he ht hc hf

/-- C5 amended witness: the first turn of the concrete session. -/
theorem ws_aggregate_emits_full_result_witness :
    ws_endpoint_step true extractConst [] (.frame frame1) =
      ⟨[.status "processing",
        .result true docFirst.text (docFirst.extractions.getD [])],
       [] ++ [⟨some (roleOf frame1.role), some (contentOf frame1.content)⟩],
       [flatten_chat_messages
         ([] ++ [⟨some (roleOf frame1.role), some (contentOf frame1.content)⟩])]⟩ :=
  ws_aggregate_emits_full_result extractConst [] frame1 docFirst
    rfl rfl (by decide) (by decide)

/-- C9: a reset frame on an aggregate session clears the turn history and
answers only an acknowledgment; the session keeps serving frames, the next
turn behaves exactly as in a fresh session, the text it submits to
extraction is flattened from the post-reset turn alone, and the emitted
result carries the full extraction result — so a span emitted before the
reset is emitted again whenever it is rediscovered. -/
theorem ws_reset_independence (f : ExtractFn) (msgs : List Msg)
    (d d2 : FrameData) (doc : Document)
    (hr : d.eot = true ∨ d.typeIsEot = true)
    (h2e : d2.eot = false) (h2t : d2.typeIsEot = false)
    (h2c : contentOf d2.content ≠ "")
    (hf : f (flatten_chat_messages
        [⟨some (roleOf d2.role), some (contentOf d2.content)⟩]) =
      Except.ok doc) :
    ws_endpoint_step true f msgs (.frame d) = ⟨[.eotAck], [], []⟩ ∧
    ws_endpoint_step true f
        (ws_endpoint_step true f msgs (.frame d)).messages (.frame d2) =
      ws_endpoint_step true f [] (.frame d2) ∧
    (ws_endpoint_step true f [] (.frame d2)).calls =
      [flatten_chat_messages
        [⟨some (roleOf d2.role), some (contentOf d2.content)⟩]] ∧
    (ws_endpoint_step true f [] (.frame d2)).outcomes =
      [Outcome.status "processing",
       Outcome.result true doc.text (doc.extractions.getD [])] := by
  have h1 : ws_endpoint_step true f msgs (.frame d) = ⟨[.eotAck], [], []⟩ := by
    rcases hr with hr | hr <;> simp [ws_endpoint_step, hr]
  have h2 : ws_endpoint_step true f [] (.frame d2) =
      ⟨[.status "processing",
        .result true doc.text (doc.extractions.getD [])],
       [⟨some (roleOf d2.role), some (contentOf d2.content)⟩],
       [flatten_chat_messages
         [⟨some (roleOf d2.role), some (contentOf d2.content)⟩]]⟩ := by
    simpa using ws_step_aggregate_ok f [] d2 doc h2e h2t h2c
      (by simpa using hf)
  refine ⟨h1, ?_, ?_, ?_⟩
  · rw [h1]
  · rw [h2]
  · rw [h2]

/-- C9 witness: reset after one turn, then the first turn replayed. -/
theorem ws_reset_independence_witness :
    ws_endpoint_step true extractConst [msg2] (.frame frameEot) =
      ⟨[.eotAck], [], []⟩ ∧
    ws_endpoint_step true extractConst
        (ws_endpoint_step true extractConst [msg2] (.frame frameEot)).messages
        (.frame frame1) =
      ws_endpoint_step true extractConst [] (.frame frame1) ∧
    (ws_endpoint_step true extractConst [] (.frame frame1)).calls =
      [flatten_chat_messages
        [⟨some (roleOf frame1.role), some (contentOf frame1.content)⟩]] ∧
    (ws_endpoint_step true extractConst [] (.frame frame1)).outcomes =
      [Outcome.status "processing",
       Outcome.result true docFirst.text (docFirst.extractions.getD [])] :=
  ws_reset_independence extractConst [msg2] frameEot frame1 docFirst
    (Or.inl rfl) rfl rfl (by decide) (by decide)

/-- C10: an empty one-shot request fails with HTTP 400 and the detail
named in the source before any extraction call; a non-empty request submits
exactly the flattened messages; a message whose content is blank after
trimming contributes nothing to the flattened text; and a missing or empty
role renders as a `user:` line. -/
theorem rest_empty_messages_flatten (f : ExtractFn) (messages : List Message)
    (pre post : List Msg) (m : Msg) (r : Option String) (c : String)
    (hm : messages ≠ [])
    (hblank : pyStrip (m.content.getD "") = "")
    (hr : r = none ∨ r = some "")
    (hc : pyStrip c ≠ "") :
    extract_endpoint f [] = ⟨.error (400, "messages must be provided"), []⟩ ∧
    (extract_endpoint f messages).calls =
      [flatten_chat_messages (messages.map toMsg)] ∧
    flatten_chat_messages (pre ++ m :: post) =
      flatten_chat_messages (pre ++ post) ∧
    messageLine ⟨r, some c⟩ = some ("user: " ++ pyStrip c) := by
  refine ⟨by simp [extract_endpoint], ?_, ?_, ?_⟩
  · cases hf : f (flatten_chat_messages (messages.map toMsg)) with
    | error e => simp [extract_endpoint, hm, hf]
    | ok doc => simp [extract_endpoint, hm, hf]
  · have hnone : messageLine m = none := by
      simp [messageLine, hblank]
    simp [flatten_chat_messages, List.filterMap_append, List.filterMap_cons,
      hnone]
  · rcases hr with rfl | rfl <;> simp [messageLine, hc]

/-- C10 witness: a concrete empty request, a blank message and an absent
role. -/
theorem rest_empty_messages_flatten_witness :
    extract_endpoint extractConst [] =
      ⟨.error (400, "messages must be provided"), []⟩ ∧
    (extract_endpoint extractConst [⟨"", "hi"⟩]).calls =
      [flatten_chat_messages ([⟨"", "hi"⟩].map toMsg)] ∧
    flatten_chat_messages ([] ++ ⟨some "user", some " "⟩ :: [msg1]) =
      flatten_chat_messages ([] ++ [msg1]) ∧
    messageLine ⟨none, some "hi"⟩ = some ("user: " ++ pyStrip "hi") :=
  rest_empty_messages_flatten extractConst [⟨"", "hi"⟩] [] [msg1]
    ⟨some "user", some " "⟩ none "hi" (by decide) (by decide)
    (Or.inl rfl) (by decide)
